import Mathlib

/-!
Verification of `blast2genomegff.py` (genTblastn repository).

This file gives a shallow embedding, in Lean, of the three core components of
the program:

* the coordinate projector `get_intervals`, which splits a flat
  transcript-space span across the sorted exon boundaries of a gene model;
* the per-hit filtering and annotation pipeline `parse_tabular_blast`,
  modelled as a step function `blastStep` folded over the parsed rows of the
  tabular blast input;
* the attribute-identifier extraction of the gene-model builder
  `gtf_to_intervals`, modelled per line as `gtfStep`.

Python `int` values are embedded as `Int`.  Values the program obtains with
`float(...)` (e-value, bitscore, alignment length, subject length) are
embedded as `Rat`; the claims proved about them only compare fixed computed
values against cutoffs, which is insensitive to the embedding of the float
rounding itself.  Writes to stderr are modelled as explicit warning tokens,
and uncaught Python exceptions (`KeyError`, `AttributeError`, `ValueError`,
`IndexError`) as `Except` errors.
-/

namespace GenTblastn

/-! ## Coordinate projector: `get_intervals` -/

/-- Length in bases of a genomic interval, `interval[1]-interval[0]+1`. -/
def ivLen (iv : Int × Int) : Int := iv.2 - iv.1 + 1

/-- Sum of the base lengths of a list of intervals. -/
def sumLen (l : List (Int × Int)) : Int := (l.map ivLen).sum

/-- Python orders intervals ascending by genomic start, descending when
`reverse=True`; ties keep input order (Python's sort is stable). -/
def startLe (doreverse : Bool) (a b : Int × Int) : Prop :=
  if doreverse then b.1 ≤ a.1 else a.1 ≤ b.1

instance (doreverse : Bool) : DecidableRel (startLe doreverse) := by
  intro a b
  unfold startLe
  infer_instance

/-- `sorted(intervals, key=lambda x: x[0], reverse=doreverse)`: stable sort of
the intervals by genomic start, descending when `doreverse`.  Embedded as a
stable insertion sort, which agrees with Python's stable sort. -/
def sortIntervals (intervals : List (Int × Int)) (doreverse : Bool) :
    List (Int × Int) :=
  intervals.insertionSort (startLe doreverse)

/-- The `for interval in sorted(...)` loop of `get_intervals`.  State carried
between iterations: the remaining exon list, `basestostart` and `domlength`.
`domstart` is recomputed inside each emitting iteration and need not be
carried.  The returned boolean records whether the function left through the
`for`/`else` clause, i.e. whether the
"WARNING: cannot finish protein" diagnostic was written to stderr. -/
def giLoop (doreverse : Bool) :
    List (Int × Int) → Int → Int → List (Int × Int) × Bool
  | [], _, _ => ([], true)
  | iv :: rest, basestostart, domlength =>
    let intervallength : Int := iv.2 - iv.1 + 1
    if basestostart ≥ intervallength then
      giLoop doreverse rest (basestostart - intervallength) domlength
    else if doreverse then
      let domstart := iv.2 - basestostart + 1
      if domstart - iv.1 + 1 ≥ domlength then
        ([(domstart - domlength + 1, domstart)], false)
      else
        if domlength - (domstart - iv.1 + 1) < 1 then
          ([(iv.1, domstart)], false)
        else
          let r := giLoop doreverse rest 1 (domlength - (domstart - iv.1 + 1))
          ((iv.1, domstart) :: r.1, r.2)
    else
      let domstart := iv.1 + basestostart - 1
      if iv.2 - domstart + 1 ≥ domlength then
        ([(domstart, domstart + domlength - 1)], false)
      else
        if domlength - (iv.2 - domstart + 1) < 1 then
          ([(domstart, iv.2)], false)
        else
          let r := giLoop doreverse rest 1 (domlength - (iv.2 - domstart + 1))
          ((domstart, iv.2) :: r.1, r.2)

/-- `get_intervals(intervals, domstart, domlength, doreverse=True)`: returns
the list of genomic intervals covering the span, together with the flag that
records whether the "cannot finish protein" warning was emitted (the span
overran the gene model). -/
def get_intervals (intervals : List (Int × Int)) (domstart domlength : Int)
    (doreverse : Bool := true) : List (Int × Int) × Bool :=
  giLoop doreverse (sortIntervals intervals doreverse) domstart domlength

/-- Exon coverage reachable by the loop of `get_intervals` from remaining
offset `s`: skipped exons consume their length from `s`; at the first exon
the span starts in, the loop can take `len - s + 1` bases there and at most
the full length of every later exon. -/
def capFrom : List (Int × Int) → Int → Int
  | [], _ => 0
  | iv :: rest, s =>
    if s ≥ iv.2 - iv.1 + 1 then capFrom rest (s - (iv.2 - iv.1 + 1))
    else (iv.2 - iv.1 + 1 - s + 1) + sumLen rest

/-- Two genomic intervals are disjoint. -/
def Disj (a b : Int × Int) : Prop := a.2 < b.1 ∨ b.2 < a.1

/-! ## Python string primitives

The Python string methods the program uses (`replace`, `split`, `rsplit`,
`lower`) are embedded structurally over `List Char` (with a fuel argument
bounding the scan, always called with the string length) so that concrete
runs evaluate inside the kernel.  All call sites in the program use
non-empty patterns; the empty-pattern behaviour of these helpers is not
relied upon. -/

/-- Replace non-overlapping occurrences of `pat` by `repl`, left to right. -/
def replaceFuel (pat repl : List Char) : Nat → List Char → List Char
  | _, [] => []
  | 0, s => s
  | n + 1, c :: cs =>
    if pat ≠ [] ∧ pat.isPrefixOf (c :: cs) then
      repl ++ replaceFuel pat repl n ((c :: cs).drop pat.length)
    else c :: replaceFuel pat repl n cs

/-- Python `s.replace(pat, repl)` for non-empty `pat`. -/
def pyReplace (s pat repl : String) : String :=
  String.mk (replaceFuel pat.toList repl.toList s.toList.length s.toList)

/-- Split on non-overlapping occurrences of `pat`, left to right. -/
def splitFuel (pat : List Char) : Nat → List Char → List (List Char)
  | _, [] => [[]]
  | 0, s => [s]
  | n + 1, c :: cs =>
    if pat ≠ [] ∧ pat.isPrefixOf (c :: cs) then
      [] :: splitFuel pat n ((c :: cs).drop pat.length)
    else
      match splitFuel pat n cs with
      | [] => [[c]]
      | h :: t => (c :: h) :: t

/-- Python `s.split(pat)` for non-empty `pat`. -/
def pySplit (s pat : String) : List String :=
  (splitFuel pat.toList s.toList.length s.toList).map String.mk

/-- Start index of the last occurrence of non-empty `pat` in the list. -/
def lastOccStart (pat : List Char) : List Char → Option Nat
  | [] => none
  | c :: cs =>
    match lastOccStart pat cs with
    | some i => some (i + 1)
    | none => if pat.isPrefixOf (c :: cs) then some 0 else none

/-- Python `s.rsplit(d, 1)[0]` for non-empty `d`: everything before the last
occurrence of the delimiter, or the whole string when it does not occur. -/
def pyRsplitHead (s d : String) : String :=
  match lastOccStart d.toList s.toList with
  | none => s
  | some i => String.mk (s.toList.take i)

/-- ASCII lower-casing of one character. -/
def lowerChar (c : Char) : Char :=
  if 'A' ≤ c ∧ c ≤ 'Z' then Char.ofNat (c.toNat + 32) else c

/-- Python `s.lower()` (the program only ever lowers ASCII program names). -/
def pyLower (s : String) : String := String.mk (s.toList.map lowerChar)

/-! ## Hit filter and annotator: `parse_tabular_blast`

One parsed row of the 12-column `-outfmt 6` blast table.  Fields the
program converts with `float(...)` are embedded as `Rat`, fields converted
with `int(...)` as `Int`, and fields kept as strings as `String`
(`sstart`/`send` are only ever printed in the Target attribute, which is
not part of the record model here). -/

structure BlastRow where
  qseqid : String
  sseqid : String
  pident : String
  alignlength : Rat
  mismatches : String
  gapopens : String
  qstart : Int
  qend : Int
  sstart : String
  send : String
  evalue : Rat
  bitscore : Rat
deriving DecidableEq

/-- Configuration of `parse_tabular_blast`, from the CLI flags. -/
structure BlastConfig where
  lengthcutoff : Rat
  evaluecutoff : Rat
  bitscutoff : Rat
  maxtargets : Int
  programname : String
  outputtype : String
  report_percent : Bool
  donamechop : Option String
  is_swissprot : Bool
  get_accession : Bool
deriving DecidableEq

/-- The lookup tables handed to `parse_tabular_blast` by the earlier
phases: subject lengths, gene exon intervals (a `defaultdict(list)`, hence
total with default `[]`), and the strand/scaffold dictionaries. -/
structure BlastEnv where
  seqlengthdict : String → Option Rat
  geneintervals : String → List (Int × Int)
  gene_to_strand_dict : String → Option String
  gene_to_scaffold_dict : String → Option String

/-- The mutable counters of `parse_tabular_blast`.  The two dictionaries
(`defaultdict(int)`) are embedded as total functions with default 0. -/
structure PipeState where
  querynamedict : String → Int
  hitDictCounter : String → Int
  not_found_subjects : Int
  shortRemovals : Int
  evalueRemovals : Int
  bitsRemovals : Int
  total_kept : Int
  missingscaffolds : Int
  intervalproblems : Int
  duplicateintervals : Int
  maxremovals : Int
  intervalcounts : Int
  backframecounts : Int
  linecounter : Int

/-- The fresh state at the start of `parse_tabular_blast`. -/
def initState : PipeState :=
  ⟨fun _ => 0, fun _ => 0, 0, 0, 0, 0, 0, 0, 0, 0, 0, 0, 0, 0⟩

/-- The parent GFF line written for an accepted hit, reduced to the fields
the specification talks about: coordinates, score, strand, and the
components of the `ID=sseqid.qseqid.number` / `same_sense=` attributes. -/
structure ParentRec where
  scaffold : String
  programname : String
  outputtype : String
  parentstart : Int
  parentend : Int
  bitscore : Rat
  strand : String
  sseqid : String
  qseqid : String
  idnum : Int
  same_sense : String
deriving DecidableEq

/-- One child `match_part` GFF line. -/
structure ChildRec where
  scaffold : String
  programname : String
  lo : Int
  hi : Int
  bitscore : Rat
  strand : String
  sseqid : String
  qseqid : String
  idnum : Int
deriving DecidableEq

/-- A line written to stdout. -/
inductive OutRec where
  | parent (p : ParentRec)
  | child (c : ChildRec)
deriving DecidableEq

/-- Warnings written to stderr by `parse_tabular_blast` (and the one
written inside `get_intervals`). -/
inductive Warn where
  | missingScaffold (q : String)
  | missingScaffoldFinal (q : String)
  | strandUndefined (q scaffold : String)
  | idMismatch (q scaffold : String)
  | noIntervals (s q : String)
  | duplicateIntervals (q : String)
  | duplicateIntervalsFinal (q : String)
  | cannotFinish
deriving DecidableEq

/-- Uncaught Python exceptions reachable in the embedded fragment. -/
inductive PyErr where
  | valueError
  | indexError
deriving DecidableEq

/-- Exact division of rationals, `Rat.divInt (a.num * b.den) (a.den * b.num)`.
This equals `a / b` on `Rat` (including the `b = 0 → 0` convention) but is
stated through `Rat.divInt` so that concrete runs evaluate inside the
kernel.  It embeds the `float` divisions of the source. -/
def ratDiv (a b : Rat) : Rat := Rat.divInt (a.num * b.den) (a.den * b.num)

/-- `get_max_frequency`: the highest multiplicity of any interval in the
list (the `max` of the values of a `Counter`).  Returns `none` on the empty
list, where Python's `max()` raises `ValueError`. -/
def get_max_frequency (intervals : List (Int × Int)) : Option Nat :=
  (intervals.map fun x => intervals.count x).max?

/-- Coordinate multiplier chosen from the blast program name: 1 for blastn,
blastx and tblastx (nucleotide coordinates), 3 otherwise (blastp/tblastn
protein coordinates). -/
def blastMultiplier (programname : String) : Int :=
  let p := pyLower programname
  if p = "blastn" ∨ p = "blastx" ∨ p = "tblastx" then 1 else 3

/-- The emission phase of one hit (source lines 286-353): project the hit
onto the genome, check for empty or duplicated intervals, and write the
parent record followed by its `match_part` children.  `genestrand` is the
gene's own strand (already known to be `+` or `-`), `doreverse` the
traversal direction derived from it. -/
def emitHit (cfg : BlastConfig) (env : BlastEnv) (st : PipeState)
    (row : BlastRow) (qseqid sseqid scaffold genestrand : String)
    (doreverse : Bool) (hitstart hitlength : Int) (backframe : Bool) :
    Except PyErr (PipeState × List OutRec × List Warn) :=
  let giRes := get_intervals (env.geneintervals qseqid) hitstart hitlength
    doreverse
  let genomeintervals := giRes.1
  let overflowWarns : List Warn := if giRes.2 then [.cannotFinish] else []
  let strand := if backframe then (if genestrand = "-" then "+" else "-")
    else genestrand
  let st := { st with
    intervalcounts := st.intervalcounts + genomeintervals.length }
  match genomeintervals with
  | [] =>
    .ok ({ st with intervalproblems := st.intervalproblems + 1 }, [],
      overflowWarns ++ [.noIntervals sseqid qseqid])
  | iv0 :: ivrest =>
    match get_max_frequency (iv0 :: ivrest) with
    | none => .error .valueError
    | some maxfreq =>
      let st := if maxfreq > 1 then
          { st with duplicateintervals := st.duplicateintervals + 1 }
        else st
      let dupWarns : List Warn := if maxfreq > 1 then
          (if st.duplicateintervals < 10 then [.duplicateIntervals qseqid]
           else if st.duplicateintervals = 10 then
             [.duplicateIntervalsFinal qseqid]
           else [])
        else []
      let allpositions := (iv0 :: ivrest).flatMap fun p => [p.1, p.2]
      match allpositions with
      | [] => .error .valueError
      | a :: arest =>
        let parent : ParentRec := {
          scaffold := scaffold, programname := cfg.programname,
          outputtype := cfg.outputtype,
          parentstart := arest.foldl min a, parentend := arest.foldl max a,
          bitscore := row.bitscore, strand := strand,
          sseqid := sseqid, qseqid := qseqid,
          idnum := st.hitDictCounter sseqid,
          same_sense := if backframe then "0" else "1" }
        let children := (iv0 :: ivrest).map fun iv => OutRec.child
          { scaffold := scaffold, programname := cfg.programname,
            lo := iv.1, hi := iv.2, bitscore := row.bitscore,
            strand := strand, sseqid := sseqid, qseqid := qseqid,
            idnum := st.hitDictCounter sseqid }
        .ok (st, OutRec.parent parent :: children, overflowWarns ++ dupWarns)

/-- Source lines 258-306, after the subject id has been normalized:
per-subject counting, the per-query cap check, backframe detection,
coordinate conversion, gene-model resolution and strand dispatch into
`emitHit`. -/
def subjectPhase (cfg : BlastConfig) (env : BlastEnv) (st : PipeState)
    (row : BlastRow) (qseqid sseqid : String) :
    Except PyErr (PipeState × List OutRec × List Warn) :=
  let st := { st with hitDictCounter := fun x =>
    if x = sseqid then st.hitDictCounter sseqid + 1
    else st.hitDictCounter x }
  if st.querynamedict qseqid > cfg.maxtargets then
    .ok ({ st with maxremovals := st.maxremovals + 1 }, [], [])
  else
    let backframe : Bool := decide (row.qstart > row.qend)
    let hitstart0 := if backframe then row.qend else row.qstart
    let hitend0 := if backframe then row.qstart else row.qend
    let st := if backframe then
        { st with backframecounts := st.backframecounts + 1 }
      else st
    let m := blastMultiplier cfg.programname
    let hitstart := (hitstart0 - 1) * m + 1
    let hitend := hitend0 * m
    let hitlength := |hitend - hitstart| + 1
    match env.gene_to_scaffold_dict qseqid with
    | none =>
      let st := { st with missingscaffolds := st.missingscaffolds + 1 }
      .ok (st, [],
        if st.missingscaffolds < 10 then [.missingScaffold qseqid]
        else if st.missingscaffolds = 10 then
          [.missingScaffoldFinal qseqid]
        else [])
    | some scaffold =>
      match env.gene_to_strand_dict qseqid with
      | none => .ok (st, [], [.idMismatch qseqid scaffold])
      | some strand =>
        if strand = "+" then
          emitHit cfg env st row qseqid sseqid scaffold strand false
            hitstart hitlength backframe
        else if strand = "-" then
          emitHit cfg env st row qseqid sseqid scaffold strand true
            hitstart hitlength backframe
        else if strand = "." then
          .ok (st, [], [.strandUndefined qseqid scaffold])
        else
          .ok (st, [], [.idMismatch qseqid scaffold])

/-- Processing of one non-comment, non-empty line of the blast table
(source lines 213-353): subject lookup, the three-cutoff filtering cascade,
per-query counting and cap, subject-id normalization and per-subject
counting, backframe detection, coordinate conversion, gene-model
resolution, and the emission phase. -/
def blastStep (cfg : BlastConfig) (env : BlastEnv) (st : PipeState)
    (row : BlastRow) : Except PyErr (PipeState × List OutRec × List Warn) :=
  let st := { st with linecounter := st.linecounter + 1 }
  match env.seqlengthdict row.sseqid with
  | none =>
    .ok ({ st with not_found_subjects := st.not_found_subjects + 1 }, [], [])
  | some subjectlength =>
    let fractioncov := ratDiv row.alignlength subjectlength
    let bitslength := ratDiv row.bitscore row.alignlength
    if fractioncov < cfg.lengthcutoff then
      .ok ({ st with shortRemovals := st.shortRemovals + 1 }, [], [])
    else if bitslength < cfg.bitscutoff then
      .ok ({ st with bitsRemovals := st.bitsRemovals + 1 }, [], [])
    else if cfg.evaluecutoff ≤ row.evalue then
      .ok ({ st with evalueRemovals := st.evalueRemovals + 1 }, [], [])
    else
      let st := { st with total_kept := st.total_kept + 1 }
      let qseqid := match cfg.donamechop with
        | none => row.qseqid
        | some d => pyRsplitHead row.qseqid d
      let st := { st with querynamedict := fun x =>
        if x = qseqid then st.querynamedict qseqid + 1
        else st.querynamedict x }
      if cfg.is_swissprot then
        if cfg.get_accession ∧ ((pySplit row.sseqid "|").get? 1).isNone then
          .error .indexError
        else
          match (pySplit row.sseqid "|").get? 2 with
          | none => .error .indexError
          | some s2 => subjectPhase cfg env st row qseqid s2
      else
        subjectPhase cfg env st row qseqid (pyReplace row.sseqid "|" "")

/-- Outcome of running `parse_tabular_blast` on a list of parsed rows:
records and warnings accumulated in order until the input is exhausted or
an exception escapes (`err`). -/
structure RunResult where
  err : Option PyErr
  state : PipeState
  recs : List OutRec
  warns : List Warn

/-- Fold `blastStep` over the rows of the blast table. -/
def runBlast (cfg : BlastConfig) (env : BlastEnv) :
    PipeState → List BlastRow → RunResult
  | st, [] => ⟨none, st, [], []⟩
  | st, row :: rest =>
    match blastStep cfg env st row with
    | .error e => ⟨some e, st, [], []⟩
    | .ok (st2, recs, warns) =>
      let R := runBlast cfg env st2 rest
      ⟨R.err, R.state, recs ++ R.recs, warns ++ R.warns⟩

/-- Whether an output record is a parent record. -/
def OutRec.isParent : OutRec → Bool
  | .parent _ => true
  | .child _ => false

/-- Number of parent records in a run's output. -/
def parentCount (R : RunResult) : Nat := (R.recs.filter OutRec.isParent).length

/-- The records emitted while processing one row (empty when the step
raises). -/
def stepRecs (cfg : BlastConfig) (env : BlastEnv) (st : PipeState)
    (row : BlastRow) : List OutRec :=
  match blastStep cfg env st row with
  | .ok (_, recs, _) => recs
  | .error _ => []

/-- The parent records of a run, in emission order. -/
def parentRecords (R : RunResult) : List ParentRec :=
  R.recs.filterMap fun r => match r with
    | .parent p => some p
    | .child _ => none

/-- Whether a hit passes the subject lookup and the three-cutoff filtering
cascade (the condition under which `total_kept` is incremented). -/
def keptHit (cfg : BlastConfig) (env : BlastEnv) (row : BlastRow) : Bool :=
  match env.seqlengthdict row.sseqid with
  | none => false
  | some subjectlength =>
    !(decide (ratDiv row.alignlength subjectlength < cfg.lengthcutoff)) &&
    !(decide (ratDiv row.bitscore row.alignlength < cfg.bitscutoff)) &&
    decide (row.evalue < cfg.evaluecutoff)

instance (rev : Bool) : IsTotal (Int × Int) (startLe rev) :=
  ⟨by intro a b; unfold startLe; split_ifs <;> omega⟩

instance (rev : Bool) : IsTrans (Int × Int) (startLe rev) :=
  ⟨by intro a b c; unfold startLe; split_ifs <;> omega⟩

instance : DecidableRel Disj := fun a b =>
  inferInstanceAs (Decidable (a.2 < b.1 ∨ b.2 < a.1))

/-! ## Concrete fixtures for pipeline runs -/

/-- Fixture: default cutoffs (coverage 0.1, e-value 1, score 0.1), at most
one target per query, program BLASTN. -/
def cfgM1 : BlastConfig :=
  ⟨mkRat 1 10, 1, mkRat 1 10, 1, "BLASTN", "protein_match", false, none,
    false, false⟩

/-- Fixture: like `cfgM1` but with a per-query cap of 100. -/
def cfgM100 : BlastConfig := { cfgM1 with maxtargets := 100 }

/-- Fixture: like `cfgM1` but with the coverage cutoff raised to 0.7. -/
def cfgTight : BlastConfig := { cfgM1 with lengthcutoff := mkRat 7 10 }

/-- Fixture: subject `prot1` of length 10; transcripts `t1`, `t2` on
scaffold `chr1`, strand `+`, one exon `(1,10)` each. -/
def envT : BlastEnv :=
  ⟨fun s => if s = "prot1" then some 10 else none,
   fun q => if q = "t1" ∨ q = "t2" then [(1, 10)] else [],
   fun q => if q = "t1" ∨ q = "t2" then some "+" else none,
   fun q => if q = "t1" ∨ q = "t2" then some "chr1" else none⟩

/-- Fixture: like `envT` but `t1` has strand `.` (undefined). -/
def envDot : BlastEnv :=
  ⟨fun s => if s = "prot1" then some 10 else none,
   fun q => if q = "t1" then [(1, 10)] else [],
   fun q => if q = "t1" then some "." else none,
   fun q => if q = "t1" then some "chr1" else none⟩

/-- Fixture row: full-length forward hit of `t1` against `prot1`. -/
def rowT1 : BlastRow :=
  ⟨"t1", "prot1", "100.0", 10, "0", "0", 1, 10, "1", "10", 0, 100⟩

/-- Fixture row: the same hit from query `t2`. -/
def rowT2 : BlastRow :=
  ⟨"t2", "prot1", "100.0", 10, "0", "0", 1, 10, "1", "10", 0, 100⟩

/-- Fixture row: half-coverage hit of `t1` whose query coordinates lie past
the single exon of the gene model (projects to zero intervals). -/
def rowU1 : BlastRow :=
  ⟨"t1", "prot1", "100.0", 5, "0", "0", 11, 12, "1", "5", 0, 100⟩

/-- Fixture row: hit of `t1` with inverted subject coordinates
(column 9 = 10 exceeds column 10 = 1) but forward query coordinates. -/
def rowSubjInv : BlastRow :=
  ⟨"t1", "prot1", "100.0", 10, "0", "0", 1, 10, "10", "1", 0, 100⟩

/-- Fixture row: hit of `t1` with inverted query coordinates
(column 7 = 10 exceeds column 8 = 1). -/
def rowQueryInv : BlastRow :=
  ⟨"t1", "prot1", "100.0", 10, "0", "0", 10, 1, "1", "10", 0, 100⟩

/-- Fixture: like `cfgM1` but with subject-header splitting enabled. -/
def cfgSwiss : BlastConfig := { cfgM1 with is_swissprot := true }

/-- Fixture: subject known but no scaffold entry for `t1`. -/
def envNoScaf : BlastEnv :=
  ⟨fun s => if s = "prot1" then some 10 else none,
   fun _ => [], fun _ => none, fun _ => none⟩

/-- Fixture: subject known, scaffold present, but no strand entry for
`t1` (an id mismatch between the blast table and the gene model). -/
def envNoStrand : BlastEnv :=
  ⟨fun s => if s = "prot1" then some 10 else none,
   fun q => if q = "t1" then [(1, 10)] else [],
   fun _ => none,
   fun q => if q = "t1" then some "chr1" else none⟩

/-! ## Gene-model builder (gtf_to_intervals, lines 72-170)

The per-record body of the parsing loop (lines 101-159) over one
non-comment, non-empty, tab-split line of the gene-model file.  A Python
`re.search` over the patterns used here (a literal, one capture group of
characters from the class `[\\w.|-]`, then a literal) is modelled by a
leftmost scan: since `"` and `;` are outside the class, the greedy group
never needs to backtrack.  `\\w` is modelled over ASCII. -/

/-- `p.startsWith s`: `p` is an initial segment of `s`. -/
def startsWith : List Char → List Char → Bool
  | [], _ => true
  | _ :: _, [] => false
  | p :: ps, c :: cs => decide (p = c) && startsWith ps cs

/-- Python `s.find(pat) > -1`: substring containment. -/
def pyContains (pat : List Char) : List Char → Bool
  | [] => pat.isEmpty
  | c :: rest => startsWith pat (c :: rest) || pyContains pat rest

/-- One character of the regex class `[\\w.|-]` (ASCII `\\w`). -/
def wordChar (c : Char) : Bool :=
  c.isAlphanum || decide (c = '_') || decide (c = '.') || decide (c = '|')
    || decide (c = '-')

/-- Strip a literal from the front of a string, or fail. -/
def stripLit : List Char → List Char → Option (List Char)
  | [], s => some s
  | _ :: _, [] => none
  | p :: ps, c :: cs => if c = p then stripLit ps cs else none

/-- Try the pattern `pre([\\w.|-]+)suf` anchored at the start of `s`,
returning the capture group. -/
def matchAtPos (pre suf s : List Char) : Option (List Char) :=
  match stripLit pre s with
  | none => none
  | some rest =>
    let grp := rest.takeWhile wordChar
    if grp.isEmpty then none
    else
      match stripLit suf (rest.drop grp.length) with
      | none => none
      | some _ => some grp

/-- `re.search` of `pre([\\w.|-]+)suf`: leftmost match wins. -/
def reSearch (pre suf : List Char) : List Char → Option (List Char)
  | [] => matchAtPos pre suf []
  | c :: rest =>
    match matchAtPos pre suf (c :: rest) with
    | some g => some g
    | none => reSearch pre suf rest

/-- One tab-split gene-model record: columns 1 (scaffold), 3 (feature),
4-5 (coordinates), 7 (strand) and 9 (attributes). -/
structure GtfRow where
  scaffold : String
  feature : String
  gstart : Int
  gend : Int
  strand : String
  attributes : String
deriving DecidableEq

/-- The flags of `gtf_to_intervals`; `genesplit = none` is the empty
(falsy) delimiter. -/
structure GtfConfig where
  keepcds : Bool
  skipexons : Bool
  transdecoder : Bool
  nogenemode : Bool
  genesplit : Option String
deriving DecidableEq

/-- The builder's mutable state: the three dictionaries and the counters
touched by the loop body. -/
structure GtfState where
  geneintervals : String → List (Int × Int)
  gene_to_strand_dict : String → Option String
  gene_to_scaffold_dict : String → Option String
  linecounter : Int
  transcounter : Int
  exoncounter : Int
  ignoredfeatures : Int

/-- Uncaught exceptions of the loop body: the explicit `KeyError` raised
with the offending line number (line 133), and the `AttributeError` from
`.group(1)` on a failed `re.search`. -/
inductive GtfErr where
  | keyError (lineno : Int)
  | attributeError
deriving DecidableEq

/-- Line 86. -/
def allowed_features : List String :=
  ["gene", "mRNA", "transcript", "exon", "CDS"]

/-- Lines 101-159: process one record. -/
def gtfStep (cfg : GtfConfig) (st : GtfState) (row : GtfRow) :
    Except GtfErr GtfState :=
  let st := { st with linecounter := st.linecounter + 1 }
  if (allowed_features.contains row.feature) = false then
    .ok { st with ignoredfeatures := st.ignoredfeatures + 1 }
  else
    let attrs := row.attributes.toList
    let geneidE : Except GtfErr (Option String) :=
      if pyContains "ID".toList attrs then
        match reSearch "ID=".toList [] attrs with
        | some g => .ok (some (String.mk g))
        | none => .error .attributeError
      else if pyContains "gene_id".toList attrs then
        match reSearch "transcript_id \"".toList "\";".toList attrs with
        | some g => .ok (some (String.mk g))
        | none => .error .attributeError
      else .ok none
    match geneidE with
    | .error e => .error e
    | .ok geneid0 =>
      let topE : Except GtfErr (Option String) :=
        if pyContains "Parent".toList attrs then
          match reSearch "Parent=".toList [] attrs with
          | some g => .ok (some (String.mk g))
          | none => .error .attributeError
        else if pyContains "gene_id".toList attrs then
          match reSearch "gene_id \"".toList "\";".toList attrs with
          | some g => .ok (some (String.mk g))
          | none => .error .attributeError
        else .ok none
      match topE with
      | .error e => .error e
      | .ok top0 =>
        if geneid0 = none ∧ top0 = none then
          .error (.keyError st.linecounter)
        else
          let geneid1 := match geneid0, top0 with
            | some g, _ => g
            | none, some t => t
            | none, none => ""
          let top1 := match top0, geneid0 with
            | some t, _ => t
            | none, some g => g
            | none, none => ""
          let geneid2 :=
            if cfg.transdecoder then
              pyReplace (pyReplace geneid1 "cds." "") ".cds" ""
            else geneid1
          let geneid3 := match cfg.genesplit with
            | none => geneid2
            | some gs => pyRsplitHead geneid2 gs
          if row.feature = "transcript" ∨ row.feature = "mRNA" then
            .ok { st with
                  transcounter := st.transcounter + 1,
                  gene_to_strand_dict := fun x =>
                    if x = geneid3 then some row.strand
                    else st.gene_to_strand_dict x,
                  gene_to_scaffold_dict := fun x =>
                    if x = geneid3 then some row.scaffold
                    else st.gene_to_scaffold_dict x }
          else if (row.feature = "exon" ∧ cfg.skipexons = false)
              ∨ (cfg.keepcds = true ∧ row.feature = "CDS") then
            let st2 := { st with exoncounter := st.exoncounter + 1 }
            let st3 :=
              if cfg.nogenemode then
                { st2 with
                  gene_to_strand_dict := fun x =>
                    if x = top1 then some row.strand
                    else st2.gene_to_strand_dict x,
                  gene_to_scaffold_dict := fun x =>
                    if x = top1 then some row.scaffold
                    else st2.gene_to_scaffold_dict x }
              else st2
            .ok { st3 with
                  geneintervals := fun x =>
                    if x = top1 then
                      st3.geneintervals x ++ [(row.gstart, row.gend)]
                    else st3.geneintervals x }
          else .ok st

/-- Fixture: all builder flags off. -/
def gtfCfg0 : GtfConfig := ⟨false, false, false, false, none⟩

/-- Fixture: empty dictionaries, all counters zero. -/
def gtfSt0 : GtfState := ⟨fun _ => [], fun _ => none, fun _ => none, 0, 0, 0, 0⟩

/-- Fixture record: a `CDS` feature whose attribute block carries none of
the identifier markers. -/
def gtfRowNoId : GtfRow := ⟨"chr1", "CDS", 5, 40, "+", "note=hello"⟩

/-- Fixture record: an unrecognized feature type, same attribute block. -/
def gtfRowIgnored : GtfRow :=
  ⟨"chr1", "start_codon", 5, 7, "+", "note=hello"⟩

/-! ## Projector lemmas -/

theorem sumLen_cons (iv : Int × Int) (l : List (Int × Int)) :
    sumLen (iv :: l) = (iv.2 - iv.1 + 1) + sumLen l := by
  simp [sumLen, ivLen]

theorem sumLen_nonneg {l : List (Int × Int)} (h : ∀ iv ∈ l, iv.1 ≤ iv.2) :
    0 ≤ sumLen l := by
  induction l with
  | nil => simp [sumLen]
  | cons iv rest ih =>
    rw [sumLen_cons]
    have h1 := h iv (by simp)
    have h2 : 0 ≤ sumLen rest := ih fun x hx => h x (by simp [hx])
    omega

/-- Whenever the loop finishes without the overflow warning, the summed
length of the returned intervals is exactly the requested span length. -/
theorem giLoop_nowarn_sum :
    ∀ (l : List (Int × Int)) (s dl : Int) (rev : Bool),
      (giLoop rev l s dl).2 = false → sumLen (giLoop rev l s dl).1 = dl := by
  intro l
  induction l with
  | nil => intro s dl rev h; rw [giLoop] at h; simp at h
  | cons iv rest ih =>
    intro s dl rev h
    rw [giLoop] at h ⊢
    simp only at h ⊢
    split_ifs at h ⊢ with h1 h2 h3 h4 h5 h6
    · exact ih _ _ _ h
    · simp [sumLen, ivLen]; omega
    · simp [sumLen, ivLen]; omega
    · have := ih 1 (dl - (iv.2 - iv.1 + 1 - s + 1 - 1)) rev
      simp only at h ⊢
      rw [sumLen_cons]
      have heq := ih 1 (dl - (iv.2 - s + 1 - iv.1 + 1)) rev h
      omega
    · simp [sumLen, ivLen]; omega
    · simp [sumLen, ivLen]; omega
    · simp only at h ⊢
      rw [sumLen_cons]
      have heq := ih 1 (dl - (iv.2 - (iv.1 + s - 1) + 1)) rev h
      omega

/-- `capFrom` is bounded by the natural reachable coverage. -/
theorem capFrom_le : ∀ (l : List (Int × Int)) (s : Int), 0 ≤ s →
    capFrom l s ≤ max 0 (sumLen l - s + 1) := by
  intro l
  induction l with
  | nil => intro s _; rw [capFrom]; simp [sumLen]
  | cons iv rest ih =>
    intro s hs
    rw [capFrom, sumLen_cons]
    split_ifs with h1
    · have := ih (s - (iv.2 - iv.1 + 1)) (by omega)
      omega
    · omega

/-- If the requested span length exceeds the coverage the loop can reach,
the loop always exhausts the exon list: it emits the overflow warning and
the emitted intervals cover strictly less than the requested length. -/
theorem giLoop_overflow :
    ∀ (l : List (Int × Int)) (s dl : Int) (rev : Bool),
      (∀ iv ∈ l, iv.1 ≤ iv.2) → 0 ≤ s → 1 ≤ dl → capFrom l s < dl →
      (giLoop rev l s dl).2 = true ∧ sumLen (giLoop rev l s dl).1 < dl := by
  intro l
  induction l with
  | nil =>
    intro s dl rev _ _ hdl _
    rw [giLoop]; simp [sumLen]; omega
  | cons iv rest ih =>
    intro s dl rev hwf hs hdl hcap
    have hwf1 : iv.1 ≤ iv.2 := hwf iv (by simp)
    have hwfr : ∀ p ∈ rest, p.1 ≤ p.2 := fun p hp => hwf p (by simp [hp])
    have hsr : 0 ≤ sumLen rest := sumLen_nonneg hwfr
    rw [capFrom] at hcap
    rw [giLoop]
    simp only
    split_ifs at hcap ⊢ with h1 h2 h3 h4 h5 h6
    · exact ih _ _ _ hwfr (by omega) hdl hcap
    · exfalso; omega
    · exfalso; omega
    · have hcr : capFrom rest 1 ≤ max 0 (sumLen rest - 1 + 1) :=
        capFrom_le rest 1 (by omega)
      have hrec := ih 1 (dl - (iv.2 - s + 1 - iv.1 + 1)) rev hwfr (by omega)
        (by omega) (by omega)
      simp only
      rw [sumLen_cons]
      exact ⟨hrec.1, by have := hrec.2; omega⟩
    · exfalso; omega
    · exfalso; omega
    · have hcr : capFrom rest 1 ≤ max 0 (sumLen rest - 1 + 1) :=
        capFrom_le rest 1 (by omega)
      have hrec := ih 1 (dl - (iv.2 - (iv.1 + s - 1) + 1)) rev hwfr (by omega)
        (by omega) (by omega)
      simp only
      rw [sumLen_cons]
      exact ⟨hrec.1, by have := hrec.2; omega⟩

/-- Every interval the loop emits is a well-formed `(low, high)` pair, for
well-formed exons, non-negative remaining offset and positive span length. -/
theorem giLoop_lohi :
    ∀ (l : List (Int × Int)) (s dl : Int) (rev : Bool),
      (∀ iv ∈ l, iv.1 ≤ iv.2) → 0 ≤ s → 1 ≤ dl →
      ∀ p ∈ (giLoop rev l s dl).1, p.1 ≤ p.2 := by
  intro l
  induction l with
  | nil => intro s dl rev _ _ _ p hp; rw [giLoop] at hp; simp at hp
  | cons iv rest ih =>
    intro s dl rev hwf hs hdl p hp
    have hwf1 : iv.1 ≤ iv.2 := hwf iv (by simp)
    have hwfr : ∀ q ∈ rest, q.1 ≤ q.2 := fun q hq => hwf q (by simp [hq])
    rw [giLoop] at hp
    simp only at hp
    split_ifs at hp with h1 h2 h3 h4 h5 h6
    · exact ih _ _ _ hwfr (by omega) hdl p hp
    · simp only [List.mem_singleton] at hp; subst hp; dsimp only; omega
    · simp only [List.mem_singleton] at hp; subst hp; dsimp only; omega
    · simp only [List.mem_cons] at hp
      rcases hp with rfl | hp
      · dsimp only; omega
      · exact ih 1 _ rev hwfr (by omega) (by omega) p hp
    · simp only [List.mem_singleton] at hp; subst hp; dsimp only; omega
    · simp only [List.mem_singleton] at hp; subst hp; dsimp only; omega
    · simp only [List.mem_cons] at hp
      rcases hp with rfl | hp
      · dsimp only; omega
      · exact ih 1 _ rev hwfr (by omega) (by omega) p hp

/-- Forward traversal: every emitted interval starts no earlier than one base
before the head exon's start (plus one when the remaining offset is
positive), provided the exon list is ascending and gapped. -/
theorem giLoop_fwd_low :
    ∀ (l : List (Int × Int)) (s dl : Int),
      (∀ iv ∈ l, iv.1 ≤ iv.2) → l.Chain' (fun a b => a.2 < b.1) →
      0 ≤ s → 1 ≤ dl →
      ∀ p ∈ (giLoop false l s dl).1, ∀ hd, l.head? = some hd →
        hd.1 - 1 + min s 1 ≤ p.1 := by
  intro l
  induction l with
  | nil => intro s dl _ _ _ _ p hp; rw [giLoop] at hp; simp at hp
  | cons iv rest ih =>
    intro s dl hwf hchain hs hdl p hp hd hhd
    have hwf1 : iv.1 ≤ iv.2 := hwf iv (by simp)
    have hwfr : ∀ q ∈ rest, q.1 ≤ q.2 := fun q hq => hwf q (by simp [hq])
    have hchainr : rest.Chain' (fun a b => a.2 < b.1) := hchain.tail
    simp only [List.head?_cons, Option.some.injEq] at hhd
    subst hhd
    rw [giLoop] at hp
    simp only [Bool.false_eq_true, if_false] at hp
    split_ifs at hp with h1 h2 h3
    · cases rest with
      | nil => rw [giLoop] at hp; simp at hp
      | cons iv2 rest2 =>
        have hgap : iv.2 < iv2.1 := (List.chain'_cons.mp hchain).1
        have := ih (s - (iv.2 - iv.1 + 1)) dl hwfr hchainr (by omega) hdl
          p hp iv2 rfl
        omega
    · simp only [List.mem_singleton] at hp; subst hp; dsimp only; omega
    · simp only [List.mem_singleton] at hp; subst hp; dsimp only; omega
    · simp only [List.mem_cons] at hp
      rcases hp with rfl | hp
      · dsimp only; omega
      · cases rest with
        | nil => rw [giLoop] at hp; simp at hp
        | cons iv2 rest2 =>
          have hgap : iv.2 < iv2.1 := (List.chain'_cons.mp hchain).1
          have := ih 1 (dl - (iv.2 - (iv.1 + s - 1) + 1)) hwfr hchainr
            (by omega) (by omega) p hp iv2 rfl
          omega

/-- Forward traversal emits intervals in strictly ascending genomic order
when the sorted exon list is ascending and pairwise gapped. -/
theorem giLoop_fwd_chain :
    ∀ (l : List (Int × Int)) (s dl : Int),
      (∀ iv ∈ l, iv.1 ≤ iv.2) → l.Chain' (fun a b => a.2 < b.1) →
      0 ≤ s → 1 ≤ dl →
      (giLoop false l s dl).1.Chain' fun p q => p.2 < q.1 := by
  intro l
  induction l with
  | nil => intro s dl _ _ _ _; rw [giLoop]; simp
  | cons iv rest ih =>
    intro s dl hwf hchain hs hdl
    have hwf1 : iv.1 ≤ iv.2 := hwf iv (by simp)
    have hwfr : ∀ q ∈ rest, q.1 ≤ q.2 := fun q hq => hwf q (by simp [hq])
    have hchainr : rest.Chain' (fun a b => a.2 < b.1) := hchain.tail
    rw [giLoop]
    simp only [Bool.false_eq_true, if_false]
    split_ifs with h1 h2 h3
    · exact ih _ _ hwfr hchainr (by omega) hdl
    · simp
    · simp
    · rw [List.chain'_cons']
      refine ⟨?_, ih 1 _ hwfr hchainr (by omega) (by omega)⟩
      intro b hb
      have hbmem : b ∈ (giLoop false rest 1 (dl - (iv.2 - (iv.1 + s - 1) + 1))).1 :=
        List.mem_of_mem_head? hb
      cases rest with
      | nil => rw [giLoop] at hbmem; simp at hbmem
      | cons iv2 rest2 =>
        have hgap : iv.2 < iv2.1 := (List.chain'_cons.mp hchain).1
        have := giLoop_fwd_low (iv2 :: rest2) 1
          (dl - (iv.2 - (iv.1 + s - 1) + 1)) hwfr hchainr (by omega) (by omega)
          b hbmem iv2 rfl
        simp only
        omega

/-- Reverse traversal: every emitted interval ends no later than one base
past the head exon's end (minus one when the remaining offset is positive),
provided the exon list is descending and gapped. -/
theorem giLoop_rev_high :
    ∀ (l : List (Int × Int)) (s dl : Int),
      (∀ iv ∈ l, iv.1 ≤ iv.2) → l.Chain' (fun a b => b.2 < a.1) →
      0 ≤ s → 1 ≤ dl →
      ∀ p ∈ (giLoop true l s dl).1, ∀ hd, l.head? = some hd →
        p.2 ≤ hd.2 + 1 - min s 1 := by
  intro l
  induction l with
  | nil => intro s dl _ _ _ _ p hp; rw [giLoop] at hp; simp at hp
  | cons iv rest ih =>
    intro s dl hwf hchain hs hdl p hp hd hhd
    have hwf1 : iv.1 ≤ iv.2 := hwf iv (by simp)
    have hwfr : ∀ q ∈ rest, q.1 ≤ q.2 := fun q hq => hwf q (by simp [hq])
    have hchainr : rest.Chain' (fun a b => b.2 < a.1) := hchain.tail
    simp only [List.head?_cons, Option.some.injEq] at hhd
    subst hhd
    rw [giLoop] at hp
    simp only [eq_self_iff_true, if_true] at hp
    split_ifs at hp with h1 h2 h3
    · cases rest with
      | nil => rw [giLoop] at hp; simp at hp
      | cons iv2 rest2 =>
        have hgap : iv2.2 < iv.1 := (List.chain'_cons.mp hchain).1
        have := ih (s - (iv.2 - iv.1 + 1)) dl hwfr hchainr (by omega) hdl
          p hp iv2 rfl
        omega
    · simp only [List.mem_singleton] at hp; subst hp; dsimp only; omega
    · simp only [List.mem_singleton] at hp; subst hp; dsimp only; omega
    · simp only [List.mem_cons] at hp
      rcases hp with rfl | hp
      · dsimp only; omega
      · cases rest with
        | nil => rw [giLoop] at hp; simp at hp
        | cons iv2 rest2 =>
          have hgap : iv2.2 < iv.1 := (List.chain'_cons.mp hchain).1
          have := ih 1 (dl - (iv.2 - s + 1 - iv.1 + 1)) hwfr hchainr
            (by omega) (by omega) p hp iv2 rfl
          omega

/-- Reverse traversal emits intervals in strictly descending genomic order
when the sorted exon list is descending and pairwise gapped. -/
theorem giLoop_rev_chain :
    ∀ (l : List (Int × Int)) (s dl : Int),
      (∀ iv ∈ l, iv.1 ≤ iv.2) → l.Chain' (fun a b => b.2 < a.1) →
      0 ≤ s → 1 ≤ dl →
      (giLoop true l s dl).1.Chain' fun p q => q.2 < p.1 := by
  intro l
  induction l with
  | nil => intro s dl _ _ _ _; rw [giLoop]; simp
  | cons iv rest ih =>
    intro s dl hwf hchain hs hdl
    have hwf1 : iv.1 ≤ iv.2 := hwf iv (by simp)
    have hwfr : ∀ q ∈ rest, q.1 ≤ q.2 := fun q hq => hwf q (by simp [hq])
    have hchainr : rest.Chain' (fun a b => b.2 < a.1) := hchain.tail
    rw [giLoop]
    simp only [eq_self_iff_true, if_true]
    split_ifs with h1 h2 h3
    · exact ih _ _ hwfr hchainr (by omega) hdl
    · simp
    · simp
    · rw [List.chain'_cons']
      refine ⟨?_, ih 1 _ hwfr hchainr (by omega) (by omega)⟩
      intro b hb
      have hbmem : b ∈ (giLoop true rest 1 (dl - (iv.2 - s + 1 - iv.1 + 1))).1 :=
        List.mem_of_mem_head? hb
      cases rest with
      | nil => rw [giLoop] at hbmem; simp at hbmem
      | cons iv2 rest2 =>
        have hgap : iv2.2 < iv.1 := (List.chain'_cons.mp hchain).1
        have := giLoop_rev_high (iv2 :: rest2) 1
          (dl - (iv.2 - s + 1 - iv.1 + 1)) hwfr hchainr (by omega) (by omega)
          b hbmem iv2 rfl
        simp only
        omega

theorem mem_sortIntervals {l : List (Int × Int)} {rev : Bool} {p : Int × Int} :
    p ∈ sortIntervals l rev ↔ p ∈ l :=
  (List.perm_insertionSort _ _).mem_iff

theorem sumLen_sortIntervals (l : List (Int × Int)) (rev : Bool) :
    sumLen (sortIntervals l rev) = sumLen l :=
  ((List.perm_insertionSort _ _).map ivLen).sum_eq

/-- Ascending sorted order plus pairwise disjointness gives the gap chain
used by the forward-order lemmas. -/
theorem sortIntervals_chain_fwd {l : List (Int × Int)}
    (hwf : ∀ iv ∈ l, iv.1 ≤ iv.2) (hdisj : l.Pairwise Disj) :
    (sortIntervals l false).Chain' fun a b => a.2 < b.1 := by
  have hsorted : (sortIntervals l false).Pairwise (startLe false) :=
    List.sorted_insertionSort _ l
  have hdisjs : (sortIntervals l false).Pairwise Disj :=
    ((List.perm_insertionSort _ _).pairwise_iff
      fun hab => hab.symm).mpr hdisj
  refine ((hsorted.and hdisjs).imp_of_mem ?_).chain'
  intro a b ha hb hab
  have hwb : b.1 ≤ b.2 := hwf b (mem_sortIntervals.mp hb)
  have hle : a.1 ≤ b.1 := by
    have := hab.1; unfold startLe at this; simpa using this
  rcases hab.2 with h | h
  · exact h
  · omega

/-- Descending sorted order plus pairwise disjointness gives the gap chain
used by the reverse-order lemmas. -/
theorem sortIntervals_chain_rev {l : List (Int × Int)}
    (hwf : ∀ iv ∈ l, iv.1 ≤ iv.2) (hdisj : l.Pairwise Disj) :
    (sortIntervals l true).Chain' fun a b => b.2 < a.1 := by
  have hsorted : (sortIntervals l true).Pairwise (startLe true) :=
    List.sorted_insertionSort _ l
  have hdisjs : (sortIntervals l true).Pairwise Disj :=
    ((List.perm_insertionSort _ _).pairwise_iff
      fun hab => hab.symm).mpr hdisj
  refine ((hsorted.and hdisjs).imp_of_mem ?_).chain'
  intro a b ha hb hab
  have hwa : a.1 ≤ a.2 := hwf a (mem_sortIntervals.mp ha)
  have hle : b.1 ≤ a.1 := by
    have := hab.1; unfold startLe at this; simpa using this
  rcases hab.2 with h | h
  · omega
  · exact h

/-! ## Claim theorems for the coordinate projector -/

/-- C1, amended.  The concrete projection example from the spec holds, and
whenever the projector finishes without signalling the span-exceeds-model
condition, the summed lengths of the returned intervals equal the requested
span length.  (The original claim conditioned the sum property on the span
arithmetically fitting inside the gene model; the counterexample shows that
condition is not enough.) -/
theorem C1_projection_sum :
    get_intervals [(50, 101), (127, 185), (212, 300)] 22 135 false
      = ([(71, 101), (127, 185), (212, 256)], false) ∧
    ∀ (exons : List (Int × Int)) (off L : Int) (rev : Bool),
      (get_intervals exons off L rev).2 = false →
      sumLen (get_intervals exons off L rev).1 = L := by
  refine ⟨by decide, ?_⟩
  intro exons off L rev h
  exact giLoop_nowarn_sum _ off L rev h

/-- Witness for C1 at the spec's concrete example. -/
theorem C1_projection_sum_witness :
    (get_intervals [((50 : Int), 101), (127, 185), (212, 300)] 22 135 false).2
        = false ∧
    sumLen
      (get_intervals [((50 : Int), 101), (127, 185), (212, 300)] 22 135
        false).1 = 135 :=
  ⟨by decide, C1_projection_sum.2 _ 22 135 false (by decide)⟩

/-- C1 counterexample: the span of length 1 at offset 10 fits inside the
single exon `(1,10)` (total length 10), yet the projector returns nothing,
so the summed lengths are 0, not 1: the loop skips an exon whenever the
remaining offset is `≥` (not `>`) its length. -/
theorem C1_projection_sum_counterexample :
    sumLen [((1 : Int), 10)] = 10 ∧
    (get_intervals [((1 : Int), 10)] 10 1 false).1 = [] ∧
    sumLen (get_intervals [((1 : Int), 10)] 10 1 false).1 = 0 := by decide

/-- C2, amended.  If the requested span length exceeds the coverage
reachable from the offset, the projector signals the span-exceeds-model
condition and returns a partial list — possibly empty, and possibly
reaching one base past the gene model — covering strictly less than the
requested length. -/
theorem C2_truncation (exons : List (Int × Int)) (off L : Int) (rev : Bool)
    (hwf : ∀ iv ∈ exons, iv.1 ≤ iv.2) (hoff : 1 ≤ off) (hL : 1 ≤ L)
    (hover : sumLen exons - off + 1 < L) :
    (get_intervals exons off L rev).2 = true ∧
    sumLen (get_intervals exons off L rev).1 < L := by
  have hwfs : ∀ iv ∈ sortIntervals exons rev, iv.1 ≤ iv.2 := fun iv hiv =>
    hwf iv (mem_sortIntervals.mp hiv)
  have hsum := sumLen_sortIntervals exons rev
  have hcap := capFrom_le (sortIntervals exons rev) off (by omega)
  exact giLoop_overflow _ off L rev hwfs (by omega) hL (by omega)

/-- Witness for C2: exons `(2,5),(9,10)` give total coverage 6; from offset
2 a span of 9 overruns the model. -/
theorem C2_truncation_witness :
    (get_intervals [((2 : Int), 5), (9, 10)] 2 9 true).2 = true ∧
    sumLen (get_intervals [((2 : Int), 5), (9, 10)] 2 9 true).1 < 9 :=
  C2_truncation [((2 : Int), 5), (9, 10)] 2 9 true (by decide) (by decide)
    (by decide) (by decide)

/-- C2 counterexample.  First: an overflowing request whose offset lies past
the model returns an empty (not non-empty) list.  Second: an overflowing
request over exons `(5,6),(1,10)` (reverse traversal) emits the interval
`(1,11)`, whose high end lies beyond every exon of the model. -/
theorem C2_truncation_counterexample :
    (get_intervals [((1 : Int), 10)] 11 1 true).1 = [] ∧
    (get_intervals [((5 : Int), 6), (1, 10)] 2 12 true).1 = [(1, 11)] ∧
    ∀ iv ∈ [((5 : Int), 6), (1, 10)], iv.2 ≤ 10 := by decide

/-- C3, amended.  For well-formed exons, positive offset and span length,
every returned interval is a `(low, high)` pair with `low ≤ high`; when the
exons are moreover pairwise disjoint, forward traversal emits the intervals
in strictly ascending genomic order and reverse traversal in strictly
descending order.  (The original claim asserted the ordering for
overlapping or duplicated exons as well; the counterexample refutes that.) -/
theorem C3_interval_order (exons : List (Int × Int)) (off L : Int)
    (rev : Bool) (hwf : ∀ iv ∈ exons, iv.1 ≤ iv.2) (hoff : 1 ≤ off)
    (hL : 1 ≤ L) :
    (∀ p ∈ (get_intervals exons off L rev).1, p.1 ≤ p.2) ∧
    (exons.Pairwise Disj →
      ((get_intervals exons off L false).1.Chain' fun p q => p.2 < q.1) ∧
      ((get_intervals exons off L true).1.Chain' fun p q => q.2 < p.1)) := by
  refine ⟨?_, fun hdisj => ⟨?_, ?_⟩⟩
  · exact giLoop_lohi _ off L rev
      (fun iv hiv => hwf iv (mem_sortIntervals.mp hiv)) (by omega) hL
  · exact giLoop_fwd_chain _ off L
      (fun iv hiv => hwf iv (mem_sortIntervals.mp hiv))
      (sortIntervals_chain_fwd hwf hdisj) (by omega) hL
  · exact giLoop_rev_chain _ off L
      (fun iv hiv => hwf iv (mem_sortIntervals.mp hiv))
      (sortIntervals_chain_rev hwf hdisj) (by omega) hL

/-- Witness for C3 on the disjoint exons `(1,5),(10,14)`. -/
theorem C3_interval_order_witness :
    (∀ p ∈ (get_intervals [((1 : Int), 5), (10, 14)] 2 6 false).1,
      p.1 ≤ p.2) ∧
    ((get_intervals [((1 : Int), 5), (10, 14)] 2 6 false).1.Chain'
      fun p q => p.2 < q.1) ∧
    ((get_intervals [((1 : Int), 5), (10, 14)] 2 6 true).1.Chain'
      fun p q => q.2 < p.1) := by
  have h := C3_interval_order [((1 : Int), 5), (10, 14)] 2 6 false (by decide)
    (by decide) (by decide)
  exact ⟨h.1, (h.2 (by decide)).1, (h.2 (by decide)).2⟩

/-- C3 counterexample: with the overlapping exons `(1,100),(5,6)` (allowed
by the claim), forward traversal emits `(50,100)` and then `(5,6)`, which is
not in ascending genomic position even in the weakest reading. -/
theorem C3_interval_order_counterexample :
    (get_intervals [((1 : Int), 100), (5, 6)] 50 53 false).1
      = [(50, 100), (5, 6)] ∧
    ¬ ((get_intervals [((1 : Int), 100), (5, 6)] 50 53 false).1.Chain'
      fun p q => p.1 ≤ q.1) := by
  refine ⟨by decide, ?_⟩
  intro h
  rw [show (get_intervals [((1 : Int), 100), (5, 6)] 50 53 false).1
      = [(50, 100), (5, 6)] from by decide] at h
  have hle := (List.chain'_cons.mp h).1
  dsimp only at hle
  omega

/-- C4, amended.  For a single exon `(a,b)` with `a < b` (at least two
bases), projecting a span of length `L ≤ b-a+1` from offset 1 yields
`(b-L+1, b)` under reverse traversal and `(a, a+L-1)` under forward
traversal.  (The original claim also covered one-base exons `a = b`; the
counterexample shows the projector returns nothing there.) -/
theorem C4_single_exon (a b L : Int) (hab : a < b) (hL1 : 1 ≤ L)
    (hL2 : L ≤ b - a + 1) :
    get_intervals [(a, b)] 1 L true = ([(b - L + 1, b)], false) ∧
    get_intervals [(a, b)] 1 L false = ([(a, a + L - 1)], false) := by
  constructor
  · show giLoop true [(a, b)] 1 L = _
    rw [giLoop]
    simp only [eq_self_iff_true, if_true]
    rw [if_neg (by omega), if_pos (by omega)]
    simp only [show (b - 1 + 1 : Int) = b from by omega]
  · show giLoop false [(a, b)] 1 L = _
    rw [giLoop]
    simp only [Bool.false_eq_true, if_false]
    rw [if_neg (by omega), if_pos (by omega)]
    simp only [show (a + 1 - 1 : Int) = a from by omega]

/-- Witness for C4 on the exon `(1,3)` with span length 2. -/
theorem C4_single_exon_witness :
    get_intervals [((1 : Int), 3)] 1 2 true = ([(2, 3)], false) ∧
    get_intervals [((1 : Int), 3)] 1 2 false = ([(1, 2)], false) :=
  C4_single_exon 1 3 2 (by decide) (by decide) (by decide)

/-- C4 counterexample: on the one-base exon `(5,5)` with `L = 1` the claim
demands `[(5,5)]`, but the projector returns the empty list in both
directions. -/
theorem C4_single_exon_counterexample :
    (get_intervals [((5 : Int), 5)] 1 1 true).1 = [] ∧
    (get_intervals [((5 : Int), 5)] 1 1 false).1 = [] := by decide

/-! ## Pipeline lemmas -/

theorem get_max_frequency_cons (iv : Int × Int) (l : List (Int × Int)) :
    ∃ n, get_max_frequency (iv :: l) = some n := ⟨_, rfl⟩

/-- The emission phase always succeeds and touches none of the counters used
before it (`total_kept`, the per-query and per-subject dictionaries, and the
cap-rejection counter). -/
theorem emitHit_spec (cfg : BlastConfig) (env : BlastEnv) (st : PipeState)
    (row : BlastRow) (q sid sc gs : String) (dorev : Bool) (hs hl : Int)
    (bf : Bool) :
    ∃ st2 recs warns,
      emitHit cfg env st row q sid sc gs dorev hs hl bf
        = .ok (st2, recs, warns) ∧
      st2.total_kept = st.total_kept ∧
      st2.querynamedict = st.querynamedict ∧
      st2.hitDictCounter = st.hitDictCounter ∧
      st2.maxremovals = st.maxremovals := by
  unfold emitHit
  dsimp only
  cases hgi : (get_intervals (env.geneintervals q) hs hl dorev).1 with
  | nil => exact ⟨_, _, _, rfl, rfl, rfl, rfl, rfl⟩
  | cons iv0 ivrest =>
    obtain ⟨n, hn⟩ := get_max_frequency_cons iv0 ivrest
    dsimp only
    rw [hn]
    dsimp only [List.flatMap_cons, List.cons_append]
    split_ifs <;> exact ⟨_, _, _, rfl, rfl, rfl, rfl, rfl⟩

set_option maxHeartbeats 2000000 in
/-- The phase after subject-id normalization always succeeds and leaves
`total_kept` and the per-query dictionary unchanged. -/
theorem subjectPhase_spec (cfg : BlastConfig) (env : BlastEnv)
    (st : PipeState) (row : BlastRow) (q sid : String) :
    ∃ st2 recs warns,
      subjectPhase cfg env st row q sid = .ok (st2, recs, warns) ∧
      st2.total_kept = st.total_kept ∧
      st2.querynamedict = st.querynamedict := by
  unfold subjectPhase
  dsimp only
  cases hsc : env.gene_to_scaffold_dict q with
  | none => dsimp only; split_ifs <;> exact ⟨_, _, _, rfl, rfl, rfl⟩
  | some scaffold =>
    dsimp only
    cases hstr : env.gene_to_strand_dict q with
    | none => dsimp only; split_ifs <;> exact ⟨_, _, _, rfl, rfl, rfl⟩
    | some strand =>
      dsimp only
      split_ifs <;>
        first
        | (obtain ⟨st2, recs, warns, heq, h1, h2, h3, h4⟩ :=
            emitHit_spec cfg env _ row q sid _ _ _ _ _ _
           exact ⟨st2, recs, warns, heq, h1, h2⟩)
        | exact ⟨_, _, _, rfl, rfl, rfl⟩

set_option maxHeartbeats 2000000 in
/-- When the configuration does not request subject-header splitting, one
step always succeeds, and `total_kept` grows by one exactly when the row
passes the subject lookup and the filtering cascade. -/
theorem blastStep_spec (cfg : BlastConfig) (env : BlastEnv) (st : PipeState)
    (row : BlastRow) (hsw : cfg.is_swissprot = false) :
    ∃ st2 recs warns,
      blastStep cfg env st row = .ok (st2, recs, warns) ∧
      st2.total_kept
        = st.total_kept + ((keptHit cfg env row).toNat : Int) := by
  unfold blastStep
  rw [hsw]
  dsimp only
  cases hsl : env.seqlengthdict row.sseqid with
  | none =>
    have hk : keptHit cfg env row = false := by unfold keptHit; rw [hsl]
    exact ⟨_, _, _, rfl, by rw [hk]; simp⟩
  | some SL =>
    simp only [Bool.false_eq_true, if_false]
    split_ifs with h1 h2 h3
    · have hk : keptHit cfg env row = false := by
        unfold keptHit; rw [hsl]; simp [h1]
      exact ⟨_, _, _, rfl, by rw [hk]; simp⟩
    · have hk : keptHit cfg env row = false := by
        unfold keptHit; rw [hsl]; simp [h2]
      exact ⟨_, _, _, rfl, by rw [hk]; simp⟩
    · have h3' : ¬ (row.evalue < cfg.evaluecutoff) := not_lt.mpr h3
      have hk : keptHit cfg env row = false := by
        unfold keptHit; rw [hsl]; simp [h3']
      exact ⟨_, _, _, rfl, by rw [hk]; simp⟩
    · have h3' : row.evalue < cfg.evaluecutoff := not_le.mp h3
      have hk : keptHit cfg env row = true := by
        unfold keptHit; rw [hsl]; simp [h1, h2, h3']
      obtain ⟨st2, recs, warns, heq, hkept, -⟩ :=
        subjectPhase_spec cfg env _ row _ (pyReplace row.sseqid "|" "")
      refine ⟨st2, recs, warns, heq, ?_⟩
      rw [hkept, hk]
      simp

set_option maxHeartbeats 2000000 in
/-- The `ValueError` branches (Python `max()`/`min()` on an empty
collection) are unreachable: hits whose projection returns no intervals are
dropped before `get_max_frequency` and the parent-bound computation run. -/
theorem blastStep_ne_valueError (cfg : BlastConfig) (env : BlastEnv)
    (st : PipeState) (row : BlastRow) :
    blastStep cfg env st row ≠ .error .valueError := by
  intro h
  unfold blastStep at h
  dsimp only at h
  rcases hsl : env.seqlengthdict row.sseqid with - | SL <;> rw [hsl] at h
  · simp at h
  · dsimp only at h
    split_ifs at h
    all_goals
      first
      | (simp at h; done)
      | (rcases hs2 : (pySplit row.sseqid "|").get? 2 with - | s2 <;>
          rw [hs2] at h
         · simp at h
         · dsimp only at h
           obtain ⟨st2, recs, warns, heq, -, -⟩ :=
             subjectPhase_spec cfg env _ row _ s2
           rw [heq] at h
           simp at h)
      | (obtain ⟨st2, recs, warns, heq, -, -⟩ :=
           subjectPhase_spec cfg env _ row _ _
         rw [heq] at h
         simp at h
         done)

/-- Folding the pipeline: `total_kept` counts exactly the rows that pass the
subject lookup and the filtering cascade. -/
theorem runBlast_total_kept (cfg : BlastConfig) (env : BlastEnv)
    (hsw : cfg.is_swissprot = false) :
    ∀ (rows : List BlastRow) (st : PipeState),
      (runBlast cfg env st rows).state.total_kept
        = st.total_kept + (rows.countP fun row => keptHit cfg env row) := by
  intro rows
  induction rows with
  | nil => intro st; simp [runBlast]
  | cons row rest ih =>
    intro st
    obtain ⟨st2, recs, warns, heq, hk⟩ := blastStep_spec cfg env st row hsw
    rw [runBlast, heq]
    dsimp only
    rw [ih st2, hk, List.countP_cons]
    cases hkv : keptHit cfg env row <;> simp [hkv] <;> push_cast <;> ring

/-- Raising the coverage cutoff only rejects more rows. -/
theorem keptHit_mono_cov (cfg : BlastConfig) (env : BlastEnv)
    (row : BlastRow) (c : Rat) (hc : cfg.lengthcutoff ≤ c)
    (h : keptHit { cfg with lengthcutoff := c } env row = true) :
    keptHit cfg env row = true := by
  unfold keptHit at h ⊢
  cases hsl : env.seqlengthdict row.sseqid
  · rw [hsl] at h; simp at h
  · rw [hsl] at h
    simp only [Bool.and_eq_true, Bool.not_eq_true', decide_eq_false_iff_not,
      decide_eq_true_eq] at h ⊢
    exact ⟨⟨fun hlt => h.1.1 (lt_of_lt_of_le hlt hc), h.1.2⟩, h.2⟩

/-- Raising the score-density cutoff only rejects more rows. -/
theorem keptHit_mono_bits (cfg : BlastConfig) (env : BlastEnv)
    (row : BlastRow) (c : Rat) (hc : cfg.bitscutoff ≤ c)
    (h : keptHit { cfg with bitscutoff := c } env row = true) :
    keptHit cfg env row = true := by
  unfold keptHit at h ⊢
  cases hsl : env.seqlengthdict row.sseqid
  · rw [hsl] at h; simp at h
  · rw [hsl] at h
    simp only [Bool.and_eq_true, Bool.not_eq_true', decide_eq_false_iff_not,
      decide_eq_true_eq] at h ⊢
    exact ⟨⟨h.1.1, fun hlt => h.1.2 (lt_of_lt_of_le hlt hc)⟩, h.2⟩

/-- Lowering the e-value cutoff only rejects more rows. -/
theorem keptHit_mono_evalue (cfg : BlastConfig) (env : BlastEnv)
    (row : BlastRow) (c : Rat) (hc : c ≤ cfg.evaluecutoff)
    (h : keptHit { cfg with evaluecutoff := c } env row = true) :
    keptHit cfg env row = true := by
  unfold keptHit at h ⊢
  cases hsl : env.seqlengthdict row.sseqid
  · rw [hsl] at h; simp at h
  · rw [hsl] at h
    simp only [Bool.and_eq_true, Bool.not_eq_true', decide_eq_false_iff_not,
      decide_eq_true_eq] at h ⊢
    exact ⟨h.1, lt_of_lt_of_le h.2 hc⟩

set_option maxHeartbeats 2000000 in
/-- A hit that passes the subject lookup and the filtering cascade reaches
`subjectPhase` with the line counter, kept counter and its per-query count
incremented (for configurations without subject-header splitting). -/
theorem blastStep_kept_eq (cfg : BlastConfig) (env : BlastEnv)
    (st : PipeState) (row : BlastRow) (q sid : String)
    (hsw : cfg.is_swissprot = false)
    (hq : q = (match cfg.donamechop with
      | none => row.qseqid
      | some d => pyRsplitHead row.qseqid d))
    (hsid : sid = pyReplace row.sseqid "|" "")
    (hkept : keptHit cfg env row = true) :
    blastStep cfg env st row = subjectPhase cfg env
      ({ st with
          linecounter := st.linecounter + 1,
          total_kept := st.total_kept + 1,
          querynamedict := fun x => if x = q then st.querynamedict q + 1
            else st.querynamedict x }) row q sid := by
  unfold blastStep
  rw [hsw]
  simp only [Bool.false_eq_true, if_false]
  cases hsl : env.seqlengthdict row.sseqid with
  | none => unfold keptHit at hkept; rw [hsl] at hkept; simp at hkept
  | some SL =>
    unfold keptHit at hkept
    rw [hsl] at hkept
    simp only [Bool.and_eq_true, Bool.not_eq_true', decide_eq_false_iff_not,
      decide_eq_true_eq] at hkept
    obtain ⟨⟨hc1, hc2⟩, hc3⟩ := hkept
    dsimp only
    rw [if_neg hc1, if_neg hc2, if_neg (not_le.mpr hc3), ← hq, ← hsid]

set_option maxHeartbeats 2000000 in
/-- The emission phase on a hit whose projection is non-empty: one parent
record followed by one child per projected interval, all carrying the
backframe-flipped strand and the current per-subject count. -/
theorem emitHit_emits (cfg : BlastConfig) (env : BlastEnv) (st : PipeState)
    (row : BlastRow) (q sid sc gs : String) (dorev : Bool) (hs hl : Int)
    (bf : Bool) (iv0 : Int × Int) (ivrest : List (Int × Int))
    (hgi : (get_intervals (env.geneintervals q) hs hl dorev).1
      = iv0 :: ivrest) :
    ∃ st2 warns pstart pend,
      emitHit cfg env st row q sid sc gs dorev hs hl bf = .ok (st2,
        OutRec.parent
          { scaffold := sc, programname := cfg.programname,
            outputtype := cfg.outputtype,
            parentstart := pstart, parentend := pend,
            bitscore := row.bitscore,
            strand := if bf then (if gs = "-" then "+" else "-") else gs,
            sseqid := sid, qseqid := q,
            idnum := st.hitDictCounter sid,
            same_sense := if bf then "0" else "1" } ::
          (iv0 :: ivrest).map (fun iv => OutRec.child
            { scaffold := sc, programname := cfg.programname,
              lo := iv.1, hi := iv.2, bitscore := row.bitscore,
              strand := if bf then (if gs = "-" then "+" else "-") else gs,
              sseqid := sid, qseqid := q,
              idnum := st.hitDictCounter sid }), warns) := by
  unfold emitHit
  dsimp only
  rw [hgi]
  obtain ⟨n, hn⟩ := get_max_frequency_cons iv0 ivrest
  dsimp only
  rw [hn]
  dsimp only [List.flatMap_cons, List.cons_append]
  split_ifs with hdup <;> exact ⟨_, _, _, _, rfl⟩

/-! ## Claim theorems for the hit filter and annotator -/

/-- C10.  The only uncaught exception a pipeline step can raise is the
`IndexError` of subject-header splitting; in particular the `ValueError`
branch of `get_max_frequency` (Python `max()` over the values of an empty
`Counter`) is unreachable for every configuration, environment, state and
row, because hits whose projection returns zero intervals are dropped
before the duplicate-interval check runs. -/
theorem C10_no_empty_max_frequency :
    ∀ (cfg : BlastConfig) (env : BlastEnv) (st : PipeState) (row : BlastRow)
      (e : PyErr), blastStep cfg env st row = .error e → e = .indexError := by
  intro cfg env st row e h
  cases e with
  | valueError => exact absurd h (blastStep_ne_valueError cfg env st row)
  | indexError => rfl

/-- Witness for C10: with subject-header splitting enabled and a subject id
without `|` separators, the step raises exactly the `IndexError`. -/
theorem C10_no_empty_max_frequency_witness :
    blastStep cfgSwiss envT initState rowT1 = .error .indexError ∧
    PyErr.indexError = .indexError :=
  ⟨rfl, C10_no_empty_max_frequency cfgSwiss envT initState rowT1
    .indexError rfl⟩

/-- C7, amended.  For a fixed input stream, tightening any one cutoff never
increases the number of hits accepted by the filtering cascade
(`total_kept`).  The number of emitted parent records, as the original
claim had it, is not monotone — see the counterexample — because a
cap-consuming hit that is later dropped (missing scaffold, no intervals)
can shadow an emittable hit of the same query. -/
theorem C7_cutoff_monotonicity :
    ∀ (cfg : BlastConfig) (env : BlastEnv) (rows : List BlastRow) (c : Rat),
      cfg.is_swissprot = false →
      ((cfg.lengthcutoff ≤ c →
        (runBlast { cfg with lengthcutoff := c } env initState
          rows).state.total_kept
          ≤ (runBlast cfg env initState rows).state.total_kept) ∧
       (cfg.bitscutoff ≤ c →
        (runBlast { cfg with bitscutoff := c } env initState
          rows).state.total_kept
          ≤ (runBlast cfg env initState rows).state.total_kept) ∧
       (c ≤ cfg.evaluecutoff →
        (runBlast { cfg with evaluecutoff := c } env initState
          rows).state.total_kept
          ≤ (runBlast cfg env initState rows).state.total_kept)) := by
  intro cfg env rows c hsw
  refine ⟨fun hc => ?_, fun hc => ?_, fun hc => ?_⟩
  · rw [runBlast_total_kept { cfg with lengthcutoff := c } env hsw rows
      initState, runBlast_total_kept cfg env hsw rows initState]
    have hmono : (rows.countP fun row => keptHit { cfg with lengthcutoff := c }
        env row) ≤ rows.countP fun row => keptHit cfg env row :=
      List.countP_mono_left fun row _ h => keptHit_mono_cov cfg env row c hc h
    have h0 : initState.total_kept = 0 := rfl
    omega
  · rw [runBlast_total_kept { cfg with bitscutoff := c } env hsw rows
      initState, runBlast_total_kept cfg env hsw rows initState]
    have hmono : (rows.countP fun row => keptHit { cfg with bitscutoff := c }
        env row) ≤ rows.countP fun row => keptHit cfg env row :=
      List.countP_mono_left fun row _ h => keptHit_mono_bits cfg env row c hc h
    have h0 : initState.total_kept = 0 := rfl
    omega
  · rw [runBlast_total_kept { cfg with evaluecutoff := c } env hsw rows
      initState, runBlast_total_kept cfg env hsw rows initState]
    have hmono : (rows.countP fun row => keptHit { cfg with evaluecutoff := c }
        env row) ≤ rows.countP fun row => keptHit cfg env row :=
      List.countP_mono_left fun row _ h => keptHit_mono_evalue cfg env row c hc h
    have h0 : initState.total_kept = 0 := rfl
    omega

/-- Witness for C7 on the two-row fixture stream, raising the coverage
cutoff from 0.1 to 0.7. -/
theorem C7_cutoff_monotonicity_witness :
    (runBlast { cfgM1 with lengthcutoff := mkRat 7 10 } envT initState
      [rowU1, rowT1]).state.total_kept
      ≤ (runBlast cfgM1 envT initState [rowU1, rowT1]).state.total_kept :=
  (C7_cutoff_monotonicity cfgM1 envT [rowU1, rowT1] (mkRat 7 10)
    (by decide)).1 (by decide)

/-- C7 counterexample: the same stream emits 0 parent records under the
loose coverage cutoff and 1 under the strictly tighter one.  The first row
passes the loose cascade, consumes the per-query cap (max 1 per query) and
is then dropped for projecting to zero intervals, shadowing the second,
emittable row; the tighter cutoff rejects the first row up front. -/
theorem C7_cutoff_monotonicity_counterexample :
    cfgTight = { cfgM1 with lengthcutoff := mkRat 7 10 } ∧
    cfgM1.lengthcutoff < cfgTight.lengthcutoff ∧
    parentCount (runBlast cfgM1 envT initState [rowU1, rowT1]) = 0 ∧
    parentCount (runBlast cfgTight envT initState [rowU1, rowT1]) = 1 := by
  decide

set_option maxHeartbeats 2000000 in
/-- C6, amended.  The per-subject occurrence counter is incremented before
the per-query cap check, not after it: a hit that passes the filtering
cascade and is then rejected by the cap still advances the per-subject
counter (and therefore the numeric suffix of later emitted record IDs for
that subject), while emitting nothing. -/
theorem C6_cap_after_subject_increment :
    ∀ (cfg : BlastConfig) (env : BlastEnv) (st : PipeState) (row : BlastRow)
      (q sid : String),
      cfg.is_swissprot = false →
      q = (match cfg.donamechop with
        | none => row.qseqid
        | some d => pyRsplitHead row.qseqid d) →
      sid = pyReplace row.sseqid "|" "" →
      keptHit cfg env row = true →
      st.querynamedict q + 1 > cfg.maxtargets →
      ∃ st2, blastStep cfg env st row = .ok (st2, [], []) ∧
        st2.hitDictCounter sid = st.hitDictCounter sid + 1 ∧
        st2.maxremovals = st.maxremovals + 1 := by
  intro cfg env st row q sid hsw hq hsid hkept hcap
  unfold blastStep
  rw [hsw]
  simp only [Bool.false_eq_true, if_false]
  cases hsl : env.seqlengthdict row.sseqid with
  | none =>
    unfold keptHit at hkept
    rw [hsl] at hkept
    exact absurd hkept (by simp)
  | some SL =>
    unfold keptHit at hkept
    rw [hsl] at hkept
    simp only [Bool.and_eq_true, Bool.not_eq_true', decide_eq_false_iff_not,
      decide_eq_true_eq] at hkept
    obtain ⟨⟨hc1, hc2⟩, hc3⟩ := hkept
    dsimp only
    rw [if_neg hc1, if_neg hc2, if_neg (not_le.mpr hc3)]
    unfold subjectPhase
    dsimp only
    rw [← hq, ← hsid]
    have hgt : (if q = q then st.querynamedict q + 1
        else st.querynamedict q) > cfg.maxtargets := by
      simpa using hcap
    rw [if_pos hgt]
    exact ⟨_, rfl, by simp, rfl⟩

/-- Witness for C6: one hit past the cap advances the subject counter. -/
theorem C6_cap_after_subject_increment_witness :
    ∃ st2,
      blastStep { cfgM1 with maxtargets := 0 } envT initState rowT1
        = .ok (st2, [], []) ∧
      st2.hitDictCounter "prot1" = initState.hitDictCounter "prot1" + 1 ∧
      st2.maxremovals = initState.maxremovals + 1 :=
  C6_cap_after_subject_increment { cfgM1 with maxtargets := 0 } envT
    initState rowT1 "t1" "prot1" (by decide) (by decide) (by decide)
    (by decide) (by decide)

/-- C6 counterexample: with a cap of one hit per query, the stream
`[rowT1, rowT1, rowT2]` (same subject throughout) cap-rejects the second
row, yet the third row's emitted parent carries numeric suffix 3, not 2:
the cap-rejected hit did advance the per-subject occurrence counter. -/
theorem C6_cap_after_subject_increment_counterexample :
    (runBlast cfgM1 envT initState [rowT1, rowT1, rowT2]).state.maxremovals
      = 1 ∧
    ((parentRecords (runBlast cfgM1 envT initState
      [rowT1, rowT1, rowT2])).map fun p => p.idnum) = [1, 3] := by decide

set_option maxHeartbeats 2000000 in
/-- C8, amended.  Only the missing-scaffold drop is rate limited, and its
policy is: warn on each of the first 9 occurrences, emit a final
suppression-announcing warning on the 10th, and emit nothing from the 11th
on.  Drops for strand `.` and for an absent strand entry emit a warning on
every occurrence, with no rate limit (and the strand-`.` drop is not
separately counted). -/
theorem C8_warning_rate_limit :
    ∀ (cfg : BlastConfig) (env : BlastEnv) (st : PipeState) (row : BlastRow)
      (q : String),
      cfg.is_swissprot = false →
      q = (match cfg.donamechop with
        | none => row.qseqid
        | some d => pyRsplitHead row.qseqid d) →
      keptHit cfg env row = true →
      ¬ (st.querynamedict q + 1 > cfg.maxtargets) →
      ((env.gene_to_scaffold_dict q = none →
        ∃ st2, blastStep cfg env st row = .ok (st2, [],
            if st.missingscaffolds + 1 < 10 then [.missingScaffold q]
            else if st.missingscaffolds + 1 = 10 then
              [.missingScaffoldFinal q]
            else []) ∧
          st2.missingscaffolds = st.missingscaffolds + 1) ∧
       (∀ sc, env.gene_to_scaffold_dict q = some sc →
        env.gene_to_strand_dict q = some "." →
        ∃ st2, blastStep cfg env st row
          = .ok (st2, [], [.strandUndefined q sc])) ∧
       (∀ sc, env.gene_to_scaffold_dict q = some sc →
        env.gene_to_strand_dict q = none →
        ∃ st2, blastStep cfg env st row
          = .ok (st2, [], [.idMismatch q sc]))) := by
  intro cfg env st row q hsw hq hkept hcapn
  have hstep := blastStep_kept_eq cfg env st row q
    (pyReplace row.sseqid "|" "") hsw hq rfl hkept
  refine ⟨fun hsc => ?_, fun sc hsc hstr => ?_, fun sc hsc hstr => ?_⟩
  all_goals
    rw [hstep]
    unfold subjectPhase
    dsimp only
    rw [if_neg (show ¬ ((if q = q then st.querynamedict q + 1
      else st.querynamedict q) > cfg.maxtargets) by simpa using hcapn)]
  · cases hbfd : decide (row.qstart > row.qend) <;>
      · try dsimp only
        rw [hsc]
        exact ⟨_, rfl, rfl⟩
  · cases hbfd : decide (row.qstart > row.qend) <;>
      · try dsimp only
        rw [hsc]
        try dsimp only
        rw [hstr]
        try dsimp only
        rw [if_neg (by decide), if_neg (by decide), if_pos rfl]
        exact ⟨_, rfl⟩
  · cases hbfd : decide (row.qstart > row.qend) <;>
      · try dsimp only
        rw [hsc]
        try dsimp only
        rw [hstr]
        exact ⟨_, rfl⟩

/-- Witness for C8: the three drop conditions instantiated on concrete
environments, with the missing-scaffold counter at zero (first occurrence
warns). -/
theorem C8_warning_rate_limit_witness :
    (∃ st2, blastStep cfgM100 envNoScaf initState rowT1
      = .ok (st2, [], [.missingScaffold "t1"]) ∧
      st2.missingscaffolds = initState.missingscaffolds + 1) ∧
    (∃ st2, blastStep cfgM100 envDot initState rowT1
      = .ok (st2, [], [.strandUndefined "t1" "chr1"])) ∧
    (∃ st2, blastStep cfgM100 envNoStrand initState rowT1
      = .ok (st2, [], [.idMismatch "t1" "chr1"])) := by
  refine ⟨?_, ?_, ?_⟩
  · have h := (C8_warning_rate_limit cfgM100 envNoScaf initState rowT1 "t1"
      (by decide) (by decide) (by decide) (by decide)).1 (by decide)
    simpa using h
  · exact ((C8_warning_rate_limit cfgM100 envDot initState rowT1 "t1"
      (by decide) (by decide) (by decide) (by decide)).2.1) "chr1"
      (by decide) (by decide)
  · exact ((C8_warning_rate_limit cfgM100 envNoStrand initState rowT1 "t1"
      (by decide) (by decide) (by decide) (by decide)).2.2) "chr1"
      (by decide) (by decide)

/-- C8 counterexample: ten hits dropped for the undefined strand `.` emit
ten warnings — one per occurrence — where the claim allows at most nine. -/
theorem C8_warning_rate_limit_counterexample :
    ((runBlast cfgM100 envDot initState
      (List.replicate 10 rowT1)).warns.countP
        fun w => decide (w = .strandUndefined "t1" "chr1")) = 10 := by decide

set_option maxHeartbeats 4000000 in
/-- C5, amended.  Coordinate-inversion (backframe) detection compares the
hit's QUERY-space start and end (columns 7 and 8 of the blast table), not
its subject-space coordinates: an emitted hit whose query start exceeds its
query end on a `+`-strand gene carries output strand `-` and
`same_sense=0`, and the same hit on a `-`-strand gene carries output strand
`+`; the projection direction is taken from the gene's own strand,
independent of the backframe flag, and every child record carries the
flipped strand with the parent's numeric suffix. -/
theorem C5_backframe_query_coords :
    ∀ (cfg : BlastConfig) (env : BlastEnv) (st : PipeState) (row : BlastRow)
      (q sid gs sc : String),
      cfg.is_swissprot = false →
      q = (match cfg.donamechop with
        | none => row.qseqid
        | some d => pyRsplitHead row.qseqid d) →
      sid = pyReplace row.sseqid "|" "" →
      keptHit cfg env row = true →
      ¬ (st.querynamedict q + 1 > cfg.maxtargets) →
      row.qend < row.qstart →
      env.gene_to_scaffold_dict q = some sc →
      env.gene_to_strand_dict q = some gs →
      gs = "+" ∨ gs = "-" →
      (get_intervals (env.geneintervals q)
        ((row.qend - 1) * blastMultiplier cfg.programname + 1)
        (|row.qstart * blastMultiplier cfg.programname -
          ((row.qend - 1) * blastMultiplier cfg.programname + 1)| + 1)
        (gs == "-")).1 ≠ [] →
      ∃ st2 p warns,
        blastStep cfg env st row = .ok (st2,
          OutRec.parent p ::
            ((get_intervals (env.geneintervals q)
              ((row.qend - 1) * blastMultiplier cfg.programname + 1)
              (|row.qstart * blastMultiplier cfg.programname -
                ((row.qend - 1) * blastMultiplier cfg.programname + 1)| + 1)
              (gs == "-")).1.map fun iv => OutRec.child
                { scaffold := sc, programname := cfg.programname,
                  lo := iv.1, hi := iv.2, bitscore := row.bitscore,
                  strand := if gs = "-" then "+" else "-",
                  sseqid := sid, qseqid := q,
                  idnum := st.hitDictCounter sid + 1 }), warns) ∧
        p.strand = (if gs = "-" then "+" else "-") ∧
        p.same_sense = "0" ∧
        p.idnum = st.hitDictCounter sid + 1 := by
  intro cfg env st row q sid gs sc hsw hq hsid hkept hcapn hbf hsc hstr hgs
    hne
  have hstep := blastStep_kept_eq cfg env st row q sid hsw hq hsid hkept
  rw [hstep]
  unfold subjectPhase
  dsimp only
  rw [if_neg (show ¬ ((if q = q then st.querynamedict q + 1
    else st.querynamedict q) > cfg.maxtargets) by simpa using hcapn)]
  have hbfd : decide (row.qstart > row.qend) = true := decide_eq_true hbf
  rw [hbfd]
  simp only [eq_self_iff_true, if_true]
  rw [hsc]
  dsimp only
  rw [hstr]
  dsimp only
  rcases hgs with rfl | rfl
  · rw [if_pos (show ("+" : String) = "+" from rfl)]
    rw [show (("+" : String) == "-") = false from rfl] at hne ⊢
    obtain ⟨iv0, ivrest, hgi⟩ := List.exists_cons_of_ne_nil hne
    obtain ⟨st2, warns, pstart, pend, hem⟩ := emitHit_emits cfg env _ row
      q sid sc "+" false _ _ true iv0 ivrest hgi
    rw [hem, hgi]
    simp only [eq_self_iff_true, if_true]
    exact ⟨st2, _, warns, rfl, rfl, rfl, rfl⟩
  · rw [if_neg (show ¬ (("-" : String) = "+") by decide),
      if_pos (show ("-" : String) = "-" from rfl)]
    rw [show (("-" : String) == "-") = true from rfl] at hne ⊢
    obtain ⟨iv0, ivrest, hgi⟩ := List.exists_cons_of_ne_nil hne
    obtain ⟨st2, warns, pstart, pend, hem⟩ := emitHit_emits cfg env _ row
      q sid sc "-" true _ _ true iv0 ivrest hgi
    rw [hem, hgi]
    simp only [eq_self_iff_true, if_true]
    exact ⟨st2, _, warns, rfl, rfl, rfl, rfl⟩

/-- Witness for C5: a query-inverted hit (qstart 10 > qend 1) on the
`+`-strand fixture gene emits output strand `-` with `same_sense=0`. -/
theorem C5_backframe_query_coords_witness :
    ∃ st2 p warns,
      blastStep cfgM100 envT initState rowQueryInv = .ok (st2,
        OutRec.parent p ::
          ((get_intervals (envT.geneintervals "t1")
            ((rowQueryInv.qend - 1) * blastMultiplier cfgM100.programname + 1)
            (|rowQueryInv.qstart * blastMultiplier cfgM100.programname -
              ((rowQueryInv.qend - 1) * blastMultiplier cfgM100.programname
                + 1)| + 1)
            (("+" : String) == "-")).1.map fun iv => OutRec.child
              { scaffold := "chr1", programname := cfgM100.programname,
                lo := iv.1, hi := iv.2, bitscore := rowQueryInv.bitscore,
                strand := if ("+" : String) = "-" then "+" else "-",
                sseqid := "prot1", qseqid := "t1",
                idnum := initState.hitDictCounter "prot1" + 1 }), warns) ∧
      p.strand = (if ("+" : String) = "-" then "+" else "-") ∧
      p.same_sense = "0" ∧
      p.idnum = initState.hitDictCounter "prot1" + 1 :=
  C5_backframe_query_coords cfgM100 envT initState rowQueryInv "t1" "prot1"
    "+" "chr1" (by decide) (by decide) (by decide) (by decide) (by decide)
    (by decide) (by decide) (by decide) (Or.inl rfl) (by decide)

/-- C5 counterexample: a hit whose subject-space start (column 9, value 10)
exceeds its subject-space end (column 10, value 1) but whose query
coordinates are forward is emitted on the `+`-strand gene with strand `+`
and `same_sense=1` — the claimed strand flip does not happen, because the
code compares columns 7/8, not 9/10. -/
theorem C5_backframe_query_coords_counterexample :
    rowSubjInv.sstart = "10" ∧ rowSubjInv.send = "1" ∧
    rowSubjInv.qstart < rowSubjInv.qend ∧
    ((parentRecords (runBlast cfgM100 envT initState [rowSubjInv])).map
      fun p => (p.strand, p.same_sense)) = [("+", "1")] := by decide

/-- C9.  For every gene-model record whose feature type is in the allowed
list but whose attribute block contains none of the identifier markers
(`ID` or `Parent` in GFF3 syntax, `gene_id` in GTF syntax), the builder
raises the fatal `KeyError` that names the offending line number; a record
whose feature type is not recognized is instead counted in
`ignoredfeatures` and skipped without error. -/
theorem C9_missing_identifier_fatal (cfg : GtfConfig) (st : GtfState)
    (row : GtfRow) :
    (allowed_features.contains row.feature = true →
      pyContains "ID".toList row.attributes.toList = false →
      pyContains "gene_id".toList row.attributes.toList = false →
      pyContains "Parent".toList row.attributes.toList = false →
      gtfStep cfg st row = .error (.keyError (st.linecounter + 1))) ∧
    (allowed_features.contains row.feature = false →
      gtfStep cfg st row =
        .ok { st with
              linecounter := st.linecounter + 1,
              ignoredfeatures := st.ignoredfeatures + 1 }) := by
  constructor
  · intro hfeat hid hgid hpar
    simp only [gtfStep, hfeat, hid, hgid, hpar, Bool.true_eq_false,
      Bool.false_eq_true, if_false, and_self, if_true]
  · intro hfeat
    simp only [gtfStep, hfeat, if_true]

/-- Witness for C9: a `CDS` record whose attribute block is `note=hello`
aborts with the `KeyError` naming line 1, while a `start_codon` record
with the same attribute block is counted and skipped. -/
theorem C9_missing_identifier_fatal_witness :
    gtfStep gtfCfg0 gtfSt0 gtfRowNoId = .error (.keyError 1) ∧
    gtfStep gtfCfg0 gtfSt0 gtfRowIgnored =
      .ok { gtfSt0 with linecounter := 1, ignoredfeatures := 1 } :=
  ⟨(C9_missing_identifier_fatal gtfCfg0 gtfSt0 gtfRowNoId).1 (by decide)
      (by decide) (by decide) (by decide),
   (C9_missing_identifier_fatal gtfCfg0 gtfSt0 gtfRowIgnored).2 (by decide)⟩

end GenTblastn
